import Mathlib

/-!
Formal model of the FinWise personal-finance calculators.

The Python source computes with IEEE floats; here every quantity is an exact
rational (`ℚ`), and Python's `round(x, k)` is modelled as exact decimal
rounding.  `float('inf')` bracket upper bounds are modelled as `Option ℚ`
with `none` standing for the unbounded top bracket.  Fallible code paths
(Python exceptions, HTTP 422 responses) are modelled with `Option`/`Except`.
-/

namespace FinCalc

/-- Python `round(x, 2)`: round to 2 decimal places.  Stated with the
executable `Rat.floor`; `round2_eq` identifies it with Mathlib's `round`. -/
def round2 (x : ℚ) : ℚ := (((100 * x + 1 / 2 : ℚ).floor : ℤ) : ℚ) / 100

/-- Python `round(x, 1)`: round to 1 decimal place. -/
def round1 (x : ℚ) : ℚ := (((10 * x + 1 / 2 : ℚ).floor : ℤ) : ℚ) / 10

/-- A bracket upper bound; `none` models Python's `float('inf')`. -/
abbrev UB := Option ℚ

/-- Python `min(income, upper)` where `upper` may be `float('inf')`. -/
def ubMin (x : ℚ) : UB → ℚ
  | none => x
  | some u => min x u

/-- Python `income <= upper` where `upper` may be `float('inf')`. -/
def ubLE (x : ℚ) : UB → Bool
  | none => true
  | some u => decide (x ≤ u)

/-- Python `income < upper` where `upper` may be `float('inf')`. -/
def ubLT (x : ℚ) : UB → Bool
  | none => true
  | some u => decide (x < u)

/-- One entry of the `applied` list built by `_apply_brackets`
(`src/calculators/tax.py`).  The display label is modelled by the band
endpoints `lo`/`hi`; `rate` and `tax` carry the rounded reported values. -/
structure BandApp where
  lo : ℚ
  hi : UB
  rate : ℚ
  tax : ℚ
deriving DecidableEq

/-- Loop body of `_apply_brackets` (`src/calculators/tax.py` lines 22-41),
carrying `prev_upper` and the accumulated (unrounded) `tax`. -/
def applyGo (taxable_income : ℚ) : List (UB × ℚ) → ℚ → ℚ → ℚ × List BandApp
  | [], _, tax => (tax, [])
  | (upper, rate) :: rest, prev_upper, tax =>
    if taxable_income ≤ prev_upper then (tax, [])
    else
      let taxable_in_band := ubMin taxable_income upper - prev_upper
      let band_tax := taxable_in_band * rate
      let app : BandApp := ⟨prev_upper, upper, round1 (rate * 100), round2 band_tax⟩
      match upper with
      | none => (tax + band_tax, [app])
      | some u =>
        if taxable_income ≤ u then (tax + band_tax, [app])
        else
          let r := applyGo taxable_income rest u (tax + band_tax)
          (r.1, app :: r.2)

/-- `_apply_brackets(taxable_income, brackets)`: returns
`(round(tax, 2), applied)`. -/
def apply_brackets (taxable_income : ℚ) (brackets : List (UB × ℚ)) : ℚ × List BandApp :=
  let r := applyGo taxable_income brackets 0 0
  (round2 r.1, r.2)

/-- `_india_apply_brackets` (`tax.py` lines 44-63): identical computation to
`_apply_brackets`, differing only in the currency symbol of the display
label (not modelled). -/
def india_apply_brackets (taxable_income : ℚ) (brackets : List (UB × ℚ)) : ℚ × List BandApp :=
  apply_brackets taxable_income brackets

/-- Sum of the reported per-band `tax` fields. -/
def sumTax (l : List BandApp) : ℚ := (l.map BandApp.tax).sum

/-- Well-formedness of a bracket table per the spec's data model: upper
bounds strictly increase above the running lower bound and only the last
entry is unbounded. -/
def chainWF (prev : ℚ) : List (UB × ℚ) → Bool
  | [] => false
  | (none, _) :: rest => rest.isEmpty
  | (some u, _) :: rest => decide (prev < u) && chainWF u rest

/-- All bracket rates are non-negative. -/
def ratesNonneg (brackets : List (UB × ℚ)) : Bool :=
  brackets.all fun b => decide (0 ≤ b.2)

/-- The marginal-rate scan shared by the take-home calculators
(`tax.py` lines 127-131, 171-175, 206-210): the first bracket whose upper
bound is `≥ taxable` supplies the rate; the initial value is `0`. -/
def marginal_rate_loop : List (UB × ℚ) → ℚ → ℚ
  | [], _ => 0
  | (upper, rate) :: rest, taxable =>
    if ubLE taxable upper then rate * 100 else marginal_rate_loop rest taxable

/-- Modelled from the spec claim wording only (for comparison with the
code): the rate of the bracket containing `taxable` when each bracket is
read as the half-open band `[previousUpperBound, currentUpperBound)`, so an
income exactly equal to an upper bound falls in the next bracket. -/
def spec_marginal_rate : List (UB × ℚ) → ℚ → ℚ
  | [], _ => 0
  | (upper, rate) :: rest, taxable =>
    if ubLT taxable upper then rate * 100 else spec_marginal_rate rest taxable

/-! ### Static configuration (`src/config.py`) -/

def US_STANDARD_DEDUCTION : List (String × ℚ) :=
  [("single", 15000), ("mfj", 30000), ("hoh", 22500)]

def US_TAX_BRACKETS : List (String × List (UB × ℚ)) :=
  [("single", [(some 11925, 0.10), (some 48475, 0.12), (some 103350, 0.22),
               (some 197300, 0.24), (some 250525, 0.32), (some 626350, 0.35), (none, 0.37)]),
   ("mfj",    [(some 23850, 0.10), (some 96950, 0.12), (some 206700, 0.22),
               (some 394600, 0.24), (some 501050, 0.32), (some 751600, 0.35), (none, 0.37)]),
   ("hoh",    [(some 17000, 0.10), (some 64850, 0.12), (some 103350, 0.22),
               (some 197300, 0.24), (some 250500, 0.32), (some 626350, 0.35), (none, 0.37)])]

def US_FICA_ss_rate : ℚ := 0.062
def US_FICA_ss_wage_base : ℚ := 176100
def US_FICA_medicare_rate : ℚ := 0.0145
def US_FICA_additional_medicare_rate : ℚ := 0.009
def US_FICA_additional_medicare_threshold_single : ℚ := 200000

def US_STATE_TAX : List (String × ℚ) :=
  [("CA", 0.093), ("NY", 0.0685), ("NJ", 0.0637), ("MA", 0.05), ("IL", 0.0495),
   ("TX", 0), ("FL", 0), ("WA", 0), ("NV", 0), ("AK", 0), ("other", 0.05)]

def UK_PERSONAL_ALLOWANCE : ℚ := 12570
def UK_PA_TAPER_START : ℚ := 100000

def UK_TAX_BRACKETS : List (UB × ℚ) :=
  [(some 50270, 0.20), (some 125140, 0.40), (none, 0.45)]

def UK_NI_lower_earnings_limit : ℚ := 6396
def UK_NI_upper_earnings_limit : ℚ := 50270
def UK_NI_rate_main : ℚ := 0.08
def UK_NI_rate_upper : ℚ := 0.02

/-- An Indian tax-regime parameter set (`INDIA_NEW_REGIME` / `INDIA_OLD_REGIME`). -/
structure IndiaRegime where
  standard_deduction : ℚ
  brackets : List (UB × ℚ)
  rebate_87a_limit : ℚ
  cess_rate : ℚ
deriving DecidableEq

def INDIA_NEW_REGIME : IndiaRegime :=
  ⟨75000,
   [(some 400000, 0), (some 800000, 0.05), (some 1200000, 0.10), (some 1600000, 0.15),
    (some 2000000, 0.20), (some 2400000, 0.25), (none, 0.30)],
   1200000, 0.04⟩

def INDIA_OLD_REGIME : IndiaRegime :=
  ⟨50000,
   [(some 250000, 0), (some 500000, 0.05), (some 1000000, 0.20), (none, 0.30)],
   500000, 0.04⟩

def INDIA_SURCHARGE : List (UB × ℚ) :=
  [(some 5000000, 0), (some 10000000, 0.10), (some 20000000, 0.15),
   (some 50000000, 0.25), (none, 0.25)]

/-- `_india_surcharge` (`tax.py` lines 66-70). -/
def india_surcharge_go : List (UB × ℚ) → ℚ → ℚ → ℚ
  | [], _, _ => 0
  | (upper, rate) :: rest, base_tax, income =>
    if ubLE income upper then round2 (base_tax * rate)
    else india_surcharge_go rest base_tax income

def india_surcharge (base_tax income : ℚ) : ℚ :=
  india_surcharge_go INDIA_SURCHARGE base_tax income

/-! ### Take-home pay (`src/calculators/tax.py` lines 80-224) -/

/-- Result of `_us_take_home`; `breakdown` is flattened into fields. -/
structure USTakeHome where
  gross_annual : ℚ
  total_tax : ℚ
  effective_rate : ℚ
  marginal_rate : ℚ
  take_home_annual : ℚ
  federal_tax : ℚ
  state_tax : ℚ
  social_security : ℚ
  medicare : ℚ
  tax_brackets_applied : List BandApp
deriving DecidableEq

/-- `_us_take_home(gross, filing, state)` (`tax.py` lines 108-146). -/
def us_take_home (gross : ℚ) (filing state : String) : USTakeHome :=
  let filing2 := if (US_TAX_BRACKETS.lookup filing).isSome then filing else "single"
  let brackets := (US_TAX_BRACKETS.lookup filing2).getD []
  let std_ded := (US_STANDARD_DEDUCTION.lookup filing2).getD 15000
  let taxable := max (gross - std_ded) 0
  let fed := apply_brackets taxable brackets
  let ss_tax := min gross US_FICA_ss_wage_base * US_FICA_ss_rate
  let med_tax := gross * US_FICA_medicare_rate
  let add_med := max (gross - US_FICA_additional_medicare_threshold_single) 0 *
    US_FICA_additional_medicare_rate
  let state_rate := (US_STATE_TAX.lookup state).getD ((US_STATE_TAX.lookup "other").getD 0)
  let state_tax := gross * state_rate
  let total_tax := fed.1 + ss_tax + med_tax + add_med + state_tax
  let take_home := gross - total_tax
  let eff_rate := if gross > 0 then total_tax / gross * 100 else 0
  let marg_rate := marginal_rate_loop brackets taxable
  ⟨round2 gross, round2 total_tax, round2 eff_rate, round1 marg_rate, round2 take_home,
   round2 fed.1, round2 state_tax, round2 ss_tax, round2 (med_tax + add_med), fed.2⟩

/-- Result of `_uk_take_home`. -/
structure UKTakeHome where
  gross_annual : ℚ
  total_tax : ℚ
  effective_rate : ℚ
  marginal_rate : ℚ
  take_home_annual : ℚ
  income_tax : ℚ
  national_insurance : ℚ
  tax_brackets_applied : List BandApp
deriving DecidableEq

/-- `_uk_take_home(gross)` (`tax.py` lines 149-188). -/
def uk_take_home (gross : ℚ) : UKTakeHome :=
  let pa := if gross > UK_PA_TAPER_START then
      max (UK_PERSONAL_ALLOWANCE - (gross - UK_PA_TAPER_START) / 2) 0
    else UK_PERSONAL_ALLOWANCE
  let taxable := max (gross - pa) 0
  let inc := apply_brackets taxable UK_TAX_BRACKETS
  let lower := UK_NI_lower_earnings_limit
  let upper := UK_NI_upper_earnings_limit
  let ni := if gross > lower then
      min gross upper * UK_NI_rate_main +
        (if gross > upper then (gross - upper) * UK_NI_rate_upper else 0) -
        lower * UK_NI_rate_main
    else 0
  let total_tax := inc.1 + ni
  let take_home := gross - total_tax
  let eff_rate := if gross > 0 then total_tax / gross * 100 else 0
  let marg_rate := marginal_rate_loop UK_TAX_BRACKETS taxable
  ⟨round2 gross, round2 total_tax, round2 eff_rate, round1 marg_rate, round2 take_home,
   round2 inc.1, round2 ni, inc.2⟩

/-- Result of `_india_take_home`. -/
structure INTakeHome where
  gross_annual : ℚ
  total_tax : ℚ
  effective_rate : ℚ
  marginal_rate : ℚ
  take_home_annual : ℚ
  income_tax : ℚ
  surcharge : ℚ
  cess : ℚ
  tax_brackets_applied : List BandApp
deriving DecidableEq

/-- `_india_take_home(gross, regime)` (`tax.py` lines 191-224). -/
def india_take_home (gross : ℚ) (regime : String) : INTakeHome :=
  let cfg := if regime = "new" then INDIA_NEW_REGIME else INDIA_OLD_REGIME
  let taxable := max (gross - cfg.standard_deduction) 0
  let res := india_apply_brackets taxable cfg.brackets
  let base_tax := if taxable ≤ cfg.rebate_87a_limit then 0 else res.1
  let surcharge := india_surcharge base_tax gross
  let cess := (base_tax + surcharge) * cfg.cess_rate
  let total_tax := base_tax + surcharge + cess
  let take_home := gross - total_tax
  let eff_rate := if gross > 0 then total_tax / gross * 100 else 0
  let marg_rate := marginal_rate_loop cfg.brackets taxable
  ⟨round2 gross, round2 total_tax, round2 eff_rate, round1 marg_rate, round2 take_home,
   round2 base_tax, round2 surcharge, round2 cess, res.2⟩

/-- The per-country payload of the take-home-pay API response. -/
inductive THData where
  | us : USTakeHome → THData
  | uk : UKTakeHome → THData
  | india : INTakeHome → THData
deriving DecidableEq

def THData.take_home_annual : THData → ℚ
  | .us r => r.take_home_annual
  | .uk r => r.take_home_annual
  | .india r => r.take_home_annual

/-- A successful take-home-pay API response. -/
structure THResponse where
  data : THData
  take_home_per_period : ℚ
deriving DecidableEq

/-- `api_take_home_pay` (`tax.py` lines 80-105), after JSON extraction:
country dispatch, the unknown-country 422 error, and the
`take_home_per_period` post-processing. -/
def api_take_home_pay (gross : ℚ) (country filing state pay_freq regime : String) :
    Except String THResponse :=
  let c := country.toUpper
  let f := filing.toLower
  let freq_divisor : ℚ :=
    (([("annual", (1 : ℚ)), ("monthly", 12), ("biweekly", 26)]).lookup pay_freq).getD 1
  let mk : THData → Except String THResponse := fun d =>
    .ok ⟨d, round2 (d.take_home_annual / freq_divisor)⟩
  if c = "US" then mk (.us (us_take_home gross f state))
  else if c = "UK" then mk (.uk (uk_take_home gross))
  else if c = "IN" then mk (.india (india_take_home gross regime))
  else .error "Country must be US, UK, or IN"

/-! ### Annuity engine (`src/calculators/mortgage.py` lines 17-55) -/

/-- The monthly rate `annual_rate_pct / 100 / 12`. -/
def monthlyRate (annual_rate_pct : ℚ) : ℚ := annual_rate_pct / 100 / 12

/-- `_monthly_payment(principal, annual_rate_pct, term_months)`
(`mortgage.py` lines 17-22 and the identical copy in `debt.py` lines 15-19).
`none` models a Python `ZeroDivisionError`: either `0.0 ** n` with `n < 0`,
or the annuity denominator `(1+r)**n - 1` being zero (exactly when
`n = 0`). -/
def monthly_payment (principal annual_rate_pct : ℚ) (term_months : ℤ) : Option ℚ :=
  if annual_rate_pct = 0 then
    some (if term_months = 0 then 0 else principal / (term_months : ℚ))
  else
    let r := monthlyRate annual_rate_pct
    if 1 + r = 0 ∧ term_months < 0 then none
    else if (1 + r) ^ term_months - 1 = 0 then none
    else some (principal * (r * (1 + r) ^ term_months) / ((1 + r) ^ term_months - 1))

/-- One month of the amortization loop: `interest = balance * r;`
`principal_paid = payment - interest; balance = max(balance - principal_paid, 0)`. -/
def amortStep (r payment balance : ℚ) : ℚ :=
  max (balance - (payment - balance * r)) 0

/-- The raw (unrounded) balance after `m` months of `amortStep`. -/
def amortBal (r payment balance : ℚ) (m : ℕ) : ℚ :=
  (amortStep r payment)^[m] balance

/-- One row of `_amortize`'s schedule; monetary fields carry the rounded
reported values. -/
structure AmortRow where
  month : ℕ
  payment : ℚ
  principal : ℚ
  interest : ℚ
  balance : ℚ
deriving DecidableEq

/-- Row production of `_amortize` (`mortgage.py` lines 25-42): `k` months
remaining, current month index `startMonth`, running raw balance `b`. -/
def amortRows (r payment : ℚ) (b : ℚ) (startMonth : ℕ) : ℕ → List AmortRow
  | 0 => []
  | k + 1 =>
    let interest := b * r
    let principal_paid := payment - interest
    let b2 := max (b - principal_paid) 0
    ⟨startMonth, round2 payment, round2 principal_paid, round2 interest, round2 b2⟩ ::
      amortRows r payment b2 (startMonth + 1) k

/-- `_amortize(principal, annual_rate_pct, term_months)`; `none` propagates
the `ZeroDivisionError` of `_monthly_payment`. -/
def amortize (principal annual_rate_pct : ℚ) (term_months : ℤ) : Option (List AmortRow) :=
  (monthly_payment principal annual_rate_pct term_months).map fun payment =>
    amortRows (monthlyRate annual_rate_pct) payment principal 1 term_months.toNat

/-- The closed-form annuity payment: the value `_monthly_payment` computes
when `annual_rate_pct > 0` and `term_months = n ≥ 1`. -/
def annuity_payment (p r : ℚ) (n : ℕ) : ℚ :=
  p * (monthlyRate r * (1 + monthlyRate r) ^ n) / ((1 + monthlyRate r) ^ n - 1)

/-- Specification helper for the amortization proofs: the `mr`-scaled
unclamped remaining balance after `m` months.  The loop balance equals
`annuityU p pay mr m / mr` for as long as this quantity is non-negative. -/
def annuityU (p pay mr : ℚ) (m : ℕ) : ℚ :=
  p * mr * (1 + mr) ^ m - pay * ((1 + mr) ^ m - 1)

/-- One entry of `_summarize_by_year`'s output (`mortgage.py` lines 45-55). -/
structure YearSummary where
  year : ℕ
  principal_paid : ℚ
  interest_paid : ℚ
  balance : ℚ
deriving DecidableEq

/-- `_summarize_by_year(schedule)`: consecutive 12-row chunks (the last may
be short), `math.ceil(len/12)` chunks in all. -/
def summarize_by_year (schedule : List AmortRow) : List YearSummary :=
  (List.range ((schedule.length + 11) / 12)).map fun i =>
    let chunk := (schedule.drop (i * 12)).take 12
    ⟨i + 1, round2 (chunk.map AmortRow.principal).sum, round2 (chunk.map AmortRow.interest).sum,
     round2 ((chunk.getLast?.map AmortRow.balance).getD 0)⟩

/-- `_validate_number(data, key, min_val, max_val, label)`
(`mortgage.py` lines 58-65), with the extracted field passed as an
`Option ℚ` (`none` = missing or non-numeric). -/
def validate_number (data : Option ℚ) (min_val max_val : ℚ) (label : String) : Except String ℚ :=
  match data with
  | none => .error (label ++ " is required and must be a number")
  | some v =>
    if min_val ≤ v ∧ v ≤ max_val then .ok v
    else .error (label ++ " must be between " ++ toString min_val ++ " and " ++ toString max_val)

/-- The mortgage-repayment API response payload. -/
structure RepaymentData where
  monthly_payment : ℚ
  total_paid : ℚ
  total_interest : ℚ
  effective_rate : ℚ
  amortization_table : List AmortRow
  summary_by_year : List YearSummary
deriving DecidableEq

/-- `api_repayment` (`mortgage.py` lines 75-106) after JSON extraction.
The outer `Option` is `none` on an uncaught exception (unreachable once
validation passes); `Except.error` is the joined 422 validation message. -/
def api_repayment (principal annual_rate term_years : Option ℚ) :
    Option (Except String RepaymentData) :=
  let pr := validate_number principal 1000 100000000 "Loan amount"
  let ar := validate_number annual_rate 0 30 "Annual interest rate"
  let ty := validate_number term_years 1 40 "Loan term"
  let errs := ([pr, ar, ty]).filterMap fun e =>
    match e with | .error m => some m | .ok _ => none
  if errs.isEmpty then
    match pr, ar, ty with
    | .ok p, .ok r, .ok t =>
      let term_months : ℤ := ⌊t * 12⌋
      (monthly_payment p r term_months).bind fun payment =>
        (amortize p r term_months).map fun schedule =>
          .ok ⟨round2 payment, round2 (payment * (term_months : ℚ)),
               round2 (payment * (term_months : ℚ) - p), r, schedule,
               summarize_by_year schedule⟩
    | _, _, _ => none
  else some (.error (String.intercalate "; " errs))

/-! ### Credit-card payoff (`src/calculators/debt.py` lines 102-158) -/

/-- One row of the payoff schedule. -/
structure CCRow where
  month : ℕ
  payment : ℚ
  interest : ℚ
  principal : ℚ
  balance : ℚ
deriving DecidableEq

/-- Return value of `payoff_sim`. -/
structure PayoffResult where
  months : ℕ
  total_interest : ℚ
  total_paid : ℚ
  schedule : List CCRow
deriving DecidableEq

/-- The `while b > 0.01 and months < 600` loop of `payoff_sim`
(`debt.py` lines 116-139).  `fuel` is `600 - months`, so `fuel = 0` is the
iteration cap. -/
def payoff_go (monthly_rate min_pct min_floor extra : ℚ) :
    ℕ → ℕ → ℚ → ℚ → ℚ → List CCRow → PayoffResult
  | 0, months, _, total_interest, total_paid, schedule =>
    ⟨months, total_interest, total_paid, schedule⟩
  | fuel + 1, months, b, total_interest, total_paid, schedule =>
    if b > 0.01 then
      let months2 := months + 1
      let interest := b * monthly_rate
      let min_pmt := max (b * min_pct / 100) min_floor
      let payment := min (min_pmt + extra) (b + interest)
      let principal := payment - interest
      let b2 := max (b - principal) 0
      let schedule2 :=
        if months2 ≤ 360 then
          schedule ++ [⟨months2, round2 payment, round2 interest, round2 principal, round2 b2⟩]
        else schedule
      payoff_go monthly_rate min_pct min_floor extra fuel months2 b2
        (total_interest + interest) (total_paid + payment) schedule2
    else ⟨months, total_interest, total_paid, schedule⟩

/-- `payoff_sim(bal, extra)` (`debt.py` lines 116-139), with the enclosing
route's `monthly_rate`, `min_pct`, `min_floor` passed explicitly. -/
def payoff_sim (monthly_rate min_pct min_floor bal extra : ℚ) : PayoffResult :=
  payoff_go monthly_rate min_pct min_floor extra 600 0 bal 0 0 []

/-- One application of the loop body to the balance alone. -/
def payoffStep (monthly_rate min_pct min_floor extra b : ℚ) : ℚ :=
  let interest := b * monthly_rate
  let min_pmt := max (b * min_pct / 100) min_floor
  let payment := min (min_pmt + extra) (b + interest)
  max (b - (payment - interest)) 0

/-- The loop's balance after `m` iterations (stationary once `b ≤ 0.01`). -/
def payoffBal (monthly_rate min_pct min_floor extra b : ℚ) : ℕ → ℚ
  | 0 => b
  | m + 1 =>
    payoffBal monthly_rate min_pct min_floor extra
      (if b > 0.01 then payoffStep monthly_rate min_pct min_floor extra b else b) m

/-- The `minimum_only` / `with_extra` summary blocks of the credit-card
API response. -/
structure CCSummary where
  months_to_payoff : ℕ
  total_interest : ℚ
  total_paid : ℚ
deriving DecidableEq

/-- The credit-card API response payload. -/
structure CCResponse where
  minimum_only : CCSummary
  with_extra : CCSummary
  interest_saved : ℚ
  months_saved : ℤ
  monthly_schedule : List CCRow
deriving DecidableEq

/-- `api_credit_card` (`debt.py` lines 102-158) after JSON extraction; a
missing `balance` is the 422 error path. -/
def api_credit_card (balance : Option ℚ) (apr min_pct min_floor extra_payment : ℚ) :
    Except String CCResponse :=
  match balance with
  | none => .error "balance is required"
  | some bal =>
    let monthly_rate := apr / 100 / 12
    let rmin := payoff_sim monthly_rate min_pct min_floor bal 0
    let rext := payoff_sim monthly_rate min_pct min_floor bal extra_payment
    .ok ⟨⟨rmin.months, round2 rmin.total_interest, round2 rmin.total_paid⟩,
         ⟨rext.months, round2 rext.total_interest, round2 rext.total_paid⟩,
         round2 (rmin.total_interest - rext.total_interest),
         (rmin.months : ℤ) - (rext.months : ℤ),
         rext.schedule⟩

/-! ### Rent vs buy (`src/calculators/mortgage.py` lines 116-216) -/

/-- One entry of `yearly_comparison`. -/
structure RVBYear where
  year : ℕ
  buy_net_worth : ℚ
  rent_net_worth : ℚ
  cumulative_buy_cost : ℚ
  cumulative_rent_cost : ℚ
deriving DecidableEq

/-- Mutable state of the rent-vs-buy year loop. -/
structure RVBState where
  home_value : ℚ
  rent : ℚ
  renter_portfolio : ℚ
  cumulative_buy_cost : ℚ
  cumulative_rent_cost : ℚ
  breakeven_year : Option ℕ
  yearly : List RVBYear
deriving DecidableEq

/-- Parsed inputs of `api_rent_vs_buy` (after float coercion and defaults). -/
structure RVBParams where
  home_price : ℚ
  down_payment_pct : ℚ
  mortgage_rate : ℚ
  term_years : ℤ
  annual_home_growth : ℚ
  monthly_rent : ℚ
  annual_rent_increase : ℚ
  investment_return : ℚ
  property_tax_rate : ℚ
  maintenance_pct : ℚ
  insurance_monthly : ℚ
  years : ℤ
deriving DecidableEq

/-- The renter's `for _ in range(12)` investment loop: grow, then add the
monthly difference when it is positive. -/
def renterMonths (monthly_invest_ret monthly_diff portfolio : ℚ) : ℕ → ℚ
  | 0 => portfolio
  | k + 1 =>
    let p := renterMonths monthly_invest_ret monthly_diff portfolio k * (1 + monthly_invest_ret)
    if monthly_diff > 0 then p + monthly_diff else p

/-- One iteration of the `for yr in range(1, years + 1)` loop of
`api_rent_vs_buy` (`mortgage.py` lines 157-199). -/
def rvbYearStep (P : RVBParams) (amort : List AmortRow) (monthly_pmt loan : ℚ)
    (yr : ℕ) (st : RVBState) : RVBState :=
  let chunk := (amort.drop ((yr - 1) * 12)).take 12
  let _principal_paid_yr := (chunk.map AmortRow.principal).sum
  let interest_paid_yr := (chunk.map AmortRow.interest).sum
  let balance_end := (chunk.getLast?.map AmortRow.balance).getD loan
  let home_value := st.home_value * (1 + P.annual_home_growth / 100)
  let buyer_equity := home_value - balance_end
  let prop_tax_annual := P.home_price * P.property_tax_rate / 100
  let maintenance_annual := P.home_price * P.maintenance_pct / 100
  let insurance_annual := P.insurance_monthly * 12
  let buy_annual_cost := interest_paid_yr + prop_tax_annual + maintenance_annual + insurance_annual
  let cumulative_buy_cost := st.cumulative_buy_cost + buy_annual_cost
  let rent_annual := st.rent * 12
  let cumulative_rent_cost := st.cumulative_rent_cost + rent_annual
  let rent := st.rent * (1 + P.annual_rent_increase / 100)
  let monthly_diff := monthly_pmt - rent_annual / 12
  let renter_portfolio := renterMonths (P.investment_return / 100 / 12) monthly_diff
    st.renter_portfolio 12
  let buy_net := round2 buyer_equity
  let rent_net := round2 renter_portfolio
  let breakeven := if st.breakeven_year = none ∧ buy_net ≥ rent_net then some yr
    else st.breakeven_year
  ⟨home_value, rent, renter_portfolio, cumulative_buy_cost, cumulative_rent_cost, breakeven,
   st.yearly ++ [⟨yr, buy_net, rent_net, round2 cumulative_buy_cost, round2 cumulative_rent_cost⟩]⟩

/-- The year loop: `k` years remaining, `yr` the current 1-based year. -/
def rvbLoop (P : RVBParams) (amort : List AmortRow) (monthly_pmt loan : ℚ) :
    ℕ → ℕ → RVBState → RVBState
  | 0, _, st => st
  | k + 1, yr, st => rvbLoop P amort monthly_pmt loan k (yr + 1)
      (rvbYearStep P amort monthly_pmt loan yr st)

/-- The rent-vs-buy API response payload. -/
structure RVBResult where
  breakeven_year : Option ℕ
  buy_net_worth_at_horizon : ℚ
  rent_net_worth_at_horizon : ℚ
  recommendation : String
  yearly_comparison : List RVBYear
deriving DecidableEq

/-- `api_rent_vs_buy` (`mortgage.py` lines 116-216) after JSON extraction.
`none` models the uncaught exceptions: `_monthly_payment`'s
`ZeroDivisionError`, and the `yearly[-1]` `IndexError` when the loop runs
zero times. -/
def api_rent_vs_buy (P : RVBParams) : Option RVBResult :=
  let years := min P.years 30
  let down_payment := P.home_price * P.down_payment_pct / 100
  let loan := P.home_price - down_payment
  let term_months := P.term_years * 12
  (monthly_payment loan P.mortgage_rate term_months).bind fun monthly_pmt =>
  (amortize loan P.mortgage_rate term_months).bind fun amort =>
  let st0 : RVBState := ⟨P.home_price, P.monthly_rent, down_payment, down_payment, 0, none, []⟩
  let stN := rvbLoop P amort monthly_pmt loan years.toNat 1 st0
  match stN.yearly.getLast? with
  | none => none
  | some last =>
    let diff := last.buy_net_worth - last.rent_net_worth
    let rec1 : String := if diff > 5000 then "BUY" else if diff < -5000 then "RENT" else "NEUTRAL"
    some ⟨stN.breakeven_year, last.buy_net_worth, last.rent_net_worth, rec1, stN.yearly⟩

/-- Specification predicate for the rent-vs-buy loop: the recorded rows are
labeled `1..length` in order, and the breakeven field records exactly the
first row (if any) whose rounded buyer net worth reaches the renter's. -/
def BreakevenInv (be : Option ℕ) (rows : List RVBYear) : Prop :=
  (∀ i (h : i < rows.length), (rows.get ⟨i, h⟩).year = i + 1) ∧
  match be with
  | none => ∀ i (h : i < rows.length),
      (rows.get ⟨i, h⟩).buy_net_worth < (rows.get ⟨i, h⟩).rent_net_worth
  | some y => 1 ≤ y ∧ ∃ hy : y - 1 < rows.length,
      (rows.get ⟨y - 1, hy⟩).rent_net_worth ≤ (rows.get ⟨y - 1, hy⟩).buy_net_worth ∧
      ∀ j (hj : j < y - 1), (rows.get ⟨j, by omega⟩).buy_net_worth <
        (rows.get ⟨j, by omega⟩).rent_net_worth

/-! ## Rounding lemmas -/

section

attribute [local semireducible] Rat.add Rat.mul Rat.inv Rat.sub Rat.ofScientific

theorem ratFloor_eq_intFloor (q : ℚ) : q.floor = ⌊q⌋ := by
  rw [Rat.floor_def', Rat.floor_def]

theorem round2_eq (x : ℚ) : round2 x = ((round (100 * x) : ℤ) : ℚ) / 100 := by
  rw [round_eq]; unfold round2; rw [ratFloor_eq_intFloor]

theorem round2_mono {x y : ℚ} (h : x ≤ y) : round2 x ≤ round2 y := by
  rw [round2_eq, round2_eq]
  have hr : round (100 * x) ≤ round (100 * y) := by
    rw [round_eq, round_eq]
    exact Int.floor_mono (by linarith)
  have hc : ((round (100 * x) : ℤ) : ℚ) ≤ ((round (100 * y) : ℤ) : ℚ) := by exact_mod_cast hr
  linarith

theorem round2_nonneg {x : ℚ} (h : 0 ≤ x) : 0 ≤ round2 x := by
  rw [round2_eq]
  have hr : (0 : ℤ) ≤ round (100 * x) := by
    rw [round_eq]
    exact Int.floor_nonneg.2 (by linarith)
  have hc : (0 : ℚ) ≤ ((round (100 * x) : ℤ) : ℚ) := by exact_mod_cast hr
  linarith

theorem abs_round2_sub_le (x : ℚ) : |round2 x - x| ≤ 1 / 200 := by
  have h := abs_sub_round (100 * x)
  rw [abs_sub_comm] at h
  have e : round2 x - x = (((round (100 * x) : ℤ) : ℚ) - 100 * x) / 100 := by
    rw [round2_eq]; ring
  rw [e, abs_div, abs_of_pos (by norm_num : (0 : ℚ) < 100)]
  linarith

/-! ## Claim: per-bracket breakdown vs total tax -/

theorem applyGo_sum_bound (x : ℚ) :
    ∀ (bs : List (UB × ℚ)) (prev t : ℚ),
      |sumTax (applyGo x bs prev t).2 - ((applyGo x bs prev t).1 - t)| ≤
        ((applyGo x bs prev t).2.length : ℚ) / 200 := by
  intro bs
  induction bs with
  | nil => intro prev t; simp [applyGo, sumTax]
  | cons hd tl ih =>
    obtain ⟨upper, rate⟩ := hd
    intro prev t
    by_cases hle : x ≤ prev
    · simp [applyGo, hle, sumTax]
    · match upper with
      | none =>
        simp only [applyGo, if_neg hle, sumTax, List.map_cons, List.map_nil, List.sum_cons,
          List.sum_nil, List.length_cons, List.length_nil]
        have := abs_round2_sub_le ((ubMin x none - prev) * rate)
        simpa using this
      | some u =>
        by_cases hub : x ≤ u
        · simp only [applyGo, if_neg hle, if_pos hub, sumTax, List.map_cons, List.map_nil,
            List.sum_cons, List.sum_nil, List.length_cons, List.length_nil]
          have := abs_round2_sub_le ((ubMin x (some u) - prev) * rate)
          simpa using this
        · simp only [applyGo, if_neg hle, if_neg hub, sumTax, List.map_cons, List.sum_cons,
            List.length_cons]
          have hrec := ih u (t + (ubMin x (some u) - prev) * rate)
          have hband := abs_round2_sub_le ((ubMin x (some u) - prev) * rate)
          set bt := (ubMin x (some u) - prev) * rate with hbt
          set R := applyGo x tl u (t + bt) with hR
          have key : round2 bt + sumTax R.2 - (R.1 - t) =
              (round2 bt - bt) + (sumTax R.2 - (R.1 - (t + bt))) := by ring
          calc |round2 bt + sumTax R.2 - (R.1 - t)|
              = |(round2 bt - bt) + (sumTax R.2 - (R.1 - (t + bt)))| := by rw [key]
            _ ≤ |round2 bt - bt| + |sumTax R.2 - (R.1 - (t + bt))| := abs_add _ _
            _ ≤ 1 / 200 + (R.2.length : ℚ) / 200 := by
                exact add_le_add hband (by simpa [sumTax] using hrec)
            _ = ((R.2.length : ℚ) + 1) / 200 := by ring
            _ = (((R.2.length + 1 : ℕ)) : ℚ) / 200 := by push_cast; ring

/-- The reported per-bracket tax amounts sum to the reported totalTax only
up to 2-decimal rounding error: the gap is at most 0.005 per traversed
bracket plus 0.005 for the total itself.  (Exact equality, as the original
claim states it, fails; see the counterexample.) -/
theorem apply_brackets_breakdown_sum_bound (x : ℚ) (bs : List (UB × ℚ)) :
    |sumTax (apply_brackets x bs).2 - (apply_brackets x bs).1| ≤
      (((apply_brackets x bs).2.length : ℚ) + 1) / 200 := by
  unfold apply_brackets
  have h1 := applyGo_sum_bound x bs 0 0
  have h2 := abs_round2_sub_le (applyGo x bs 0 0).1
  set R := applyGo x bs 0 0 with hR
  have key : sumTax R.2 - round2 R.1 =
      (sumTax R.2 - (R.1 - 0)) + (R.1 - round2 R.1) := by ring
  calc |sumTax R.2 - round2 R.1|
      = |(sumTax R.2 - (R.1 - 0)) + (R.1 - round2 R.1)| := by rw [key]
    _ ≤ |sumTax R.2 - (R.1 - 0)| + |R.1 - round2 R.1| := abs_add _ _
    _ ≤ (R.2.length : ℚ) / 200 + 1 / 200 := by
        refine add_le_add h1 ?_
        rw [abs_sub_comm]; exact h2
    _ = ((R.2.length : ℚ) + 1) / 200 := by ring

/-- Counterexample to the claim as stated: a strictly increasing bracket
table whose last entry is unbounded and a non-negative taxable income on
which the reported per-bracket amounts sum to 0 while the returned totalTax
is 0.01. -/
theorem apply_brackets_breakdown_sum_gap :
    (apply_brackets 2 [(some 1, 0.004), (none, 0.004)]).1 = 1 / 100 ∧
    sumTax (apply_brackets 2 [(some 1, 0.004), (none, 0.004)]).2 = 0 ∧
    sumTax (apply_brackets 2 [(some 1, 0.004), (none, 0.004)]).2 ≠
      (apply_brackets 2 [(some 1, 0.004), (none, 0.004)]).1 := by
  refine ⟨by decide, by decide, by decide⟩

/-! ## Claim: totalTax is monotone in taxableIncome -/

theorem applyGo_fst_ge (y : ℚ) :
    ∀ (bs : List (UB × ℚ)) (prev t : ℚ), chainWF prev bs = true → ratesNonneg bs = true →
      t ≤ (applyGo y bs prev t).1 := by
  intro bs
  induction bs with
  | nil => intro prev t hwf _; simp [chainWF] at hwf
  | cons hd tl ih =>
    obtain ⟨upper, rate⟩ := hd
    intro prev t hwf hr
    have hr' : 0 ≤ rate ∧ ratesNonneg tl = true := by
      simpa [ratesNonneg] using hr
    by_cases hle : y ≤ prev
    · simp [applyGo, hle]
    · match upper with
      | none =>
        have hband : 0 ≤ ubMin y none - prev := by simp [ubMin]; linarith
        simp only [applyGo, if_neg hle]
        nlinarith [mul_nonneg hband hr'.1]
      | some u =>
        have hwf' : prev < u ∧ chainWF u tl = true := by
          simpa [chainWF] using hwf
        have hband : 0 ≤ ubMin y (some u) - prev := by
          have : prev < min y u := lt_min (not_le.1 hle) hwf'.1
          simp only [ubMin]; linarith
        have hbt : 0 ≤ (ubMin y (some u) - prev) * rate := mul_nonneg hband hr'.1
        by_cases hyu : y ≤ u
        · simp only [applyGo, if_neg hle, if_pos hyu]; linarith
        · simp only [applyGo, if_neg hle, if_neg hyu]
          exact le_trans (by linarith)
            (ih u (t + (ubMin y (some u) - prev) * rate) hwf'.2 hr'.2)

theorem applyGo_fst_mono {x y : ℚ} (hxy : x ≤ y) :
    ∀ (bs : List (UB × ℚ)) (prev t1 t2 : ℚ), chainWF prev bs = true → ratesNonneg bs = true →
      t1 ≤ t2 → (applyGo x bs prev t1).1 ≤ (applyGo y bs prev t2).1 := by
  intro bs
  induction bs with
  | nil => intro prev t1 t2 hwf _ _; simp [chainWF] at hwf
  | cons hd tl ih =>
    obtain ⟨upper, rate⟩ := hd
    intro prev t1 t2 hwf hr ht
    have hr' : 0 ≤ rate ∧ ratesNonneg tl = true := by
      simpa [ratesNonneg] using hr
    by_cases hx : x ≤ prev
    · have hL : (applyGo x ((upper, rate) :: tl) prev t1).1 = t1 := by
        simp [applyGo, hx]
      rw [hL]
      exact le_trans ht (applyGo_fst_ge y _ prev t2 hwf hr)
    · have hy : ¬ y ≤ prev := fun h => hx (le_trans hxy h)
      have hbandle : ubMin x upper - prev ≤ ubMin y upper - prev := by
        cases upper with
        | none => simp only [ubMin]; linarith
        | some u =>
          simp only [ubMin]
          exact sub_le_sub_right (min_le_min hxy le_rfl) _
      have hbtle : (ubMin x upper - prev) * rate ≤ (ubMin y upper - prev) * rate :=
        mul_le_mul_of_nonneg_right hbandle hr'.1
      match upper with
      | none =>
        simp only [applyGo, if_neg hx, if_neg hy]
        simp only [ubMin] at hbtle ⊢
        linarith
      | some u =>
        have hwf' : prev < u ∧ chainWF u tl = true := by
          simpa [chainWF] using hwf
        by_cases hxu : x ≤ u
        · by_cases hyu : y ≤ u
          · simp only [applyGo, if_neg hx, if_neg hy, if_pos hxu, if_pos hyu]
            simp only [ubMin] at hbtle ⊢
            linarith
          · simp only [applyGo, if_neg hx, if_neg hy, if_pos hxu, if_neg hyu]
            refine le_trans ?_
              (applyGo_fst_ge y tl u (t2 + (ubMin y (some u) - prev) * rate) hwf'.2 hr'.2)
            simp only [ubMin] at hbtle ⊢
            linarith
        · have hyu : ¬ y ≤ u := fun h => hxu (hxy.trans h)
          simp only [applyGo, if_neg hx, if_neg hy, if_neg hxu, if_neg hyu]
          exact ih u (t1 + (ubMin x (some u) - prev) * rate)
            (t2 + (ubMin y (some u) - prev) * rate) hwf'.2 hr'.2 (by linarith)

/-- For every well-formed progressive bracket table (strictly increasing
positive upper bounds, last entry unbounded) with non-negative rates, the
returned totalTax is monotonically non-decreasing in taxableIncome. -/
theorem apply_brackets_total_mono (bs : List (UB × ℚ)) (x y : ℚ)
    (hwf : chainWF 0 bs = true) (hr : ratesNonneg bs = true) (_hx : 0 ≤ x) (hxy : x ≤ y) :
    (apply_brackets x bs).1 ≤ (apply_brackets y bs).1 := by
  unfold apply_brackets
  exact round2_mono (applyGo_fst_mono hxy bs 0 0 0 hwf hr le_rfl)

theorem apply_brackets_total_mono_witness :
    (apply_brackets 5 [(some 10, 1 / 10), (none, 1 / 5)]).1 ≤
      (apply_brackets 15 [(some 10, 1 / 10), (none, 1 / 5)]).1 :=
  apply_brackets_total_mono [(some 10, 1 / 10), (none, 1 / 5)] 5 15
    (by decide) (by decide) (by norm_num) (by norm_num)

/-! ## Claim: marginal rate and the bracket containing taxable income -/

/-- The marginal-rate scan returns the rate of the bracket containing the
taxable income when each bracket covers the half-open band
`(previousUpperBound, currentUpperBound]`: every earlier bracket's upper
bound lies strictly below the income, and the income is at most this
bracket's bound — in particular an income exactly equal to an upper bound
takes that bracket's (lower) rate.  The UK instance: gross £62,840 gives
taxable income exactly £50,270, reported marginal rate 20%, not 40%. -/
theorem marginal_rate_containing_bracket :
    (∀ (pre : List (UB × ℚ)) (u : UB) (r : ℚ) (post : List (UB × ℚ)) (x : ℚ),
        (∀ p ∈ pre, ∃ v, p.1 = some v ∧ v < x) → ubLE x u = true →
        marginal_rate_loop (pre ++ (u, r) :: post) x = r * 100) ∧
    (uk_take_home 62840).marginal_rate = 20 := by
  constructor
  · intro pre
    induction pre with
    | nil =>
      intro u r post x _ hu
      simp [marginal_rate_loop, hu]
    | cons hd tl ih =>
      intro u r post x hpre hu
      obtain ⟨u0, r0⟩ := hd
      obtain ⟨v, hv, hlt⟩ := hpre (u0, r0) (List.mem_cons_self _ _)
      simp only at hv
      subst hv
      have hskip : ubLE x (some v) = false := by
        simp [ubLE]; linarith
      simp only [List.cons_append, marginal_rate_loop, hskip, Bool.false_eq_true, if_false]
      exact ih u r post x (fun p hp => hpre p (List.mem_cons_of_mem _ hp)) hu
  · decide

theorem marginal_rate_containing_bracket_witness :
    marginal_rate_loop [(some 10, 1 / 10), (some 20, 3 / 10)] 20 = 3 / 10 * 100 :=
  marginal_rate_containing_bracket.1 [(some 10, 1 / 10)] (some 20) (3 / 10) [] 20
    (by
      intro p hp
      simp only [List.mem_singleton] at hp
      subst hp
      exact ⟨10, rfl, by norm_num⟩)
    (by decide)

/-- Counterexample to the claim's half-open `[prev, upper)` reading: a US
single filer with gross 26,925 has taxable income exactly 11,925 (the first
bracket's upper bound); the code reports marginal rate 10, while the
claim's convention (income at an upper bound lies in the next bracket)
would give 12. -/
theorem marginal_rate_boundary_gap :
    (us_take_home 26925 "single" "other").marginal_rate = 10 ∧
    round1 (spec_marginal_rate ((US_TAX_BRACKETS.lookup "single").getD [])
      (max ((26925 : ℚ) - 15000) 0)) = 12 ∧
    ((10 : ℚ) ≠ 12) := by
  refine ⟨by decide, by decide, by norm_num⟩

/-! ## Claim: US take-home fallbacks for unknown filing status / state -/

/-- An unrecognized filing status behaves exactly as `"single"`, an
unrecognized state exactly as `"other"`, and the take-home API succeeds
precisely when the upper-cased country is US, UK or IN. -/
theorem us_take_home_fallback_defaults :
    (∀ (gross : ℚ) (filing state : String), US_TAX_BRACKETS.lookup filing = none →
        us_take_home gross filing state = us_take_home gross "single" state) ∧
    (∀ (gross : ℚ) (filing state : String), US_STATE_TAX.lookup state = none →
        us_take_home gross filing state = us_take_home gross filing "other") ∧
    (∀ (gross : ℚ) (country filing state pay_freq regime : String),
        (api_take_home_pay gross country filing state pay_freq regime).toOption.isSome = true ↔
          country.toUpper ∈ ["US", "UK", "IN"]) := by
  refine ⟨?_, ?_, ?_⟩
  · intro g f s h
    simp only [us_take_home, h]
    rfl
  · intro g f s h
    simp only [us_take_home, h]
    rfl
  · intro g c f s fr re
    simp only [api_take_home_pay]
    by_cases h1 : c.toUpper = "US"
    · simp [h1, Except.toOption]
    · by_cases h2 : c.toUpper = "UK"
      · simp [h1, h2, Except.toOption]
      · by_cases h3 : c.toUpper = "IN"
        · simp [h1, h2, h3, Except.toOption]
        · simp [h1, h2, h3, Except.toOption]

theorem us_take_home_fallback_defaults_witness :
    us_take_home 1000 "married" "other" = us_take_home 1000 "single" "other" ∧
    us_take_home 1000 "single" "ZZ" = us_take_home 1000 "single" "other" ∧
    ((api_take_home_pay 1000 "us" "single" "other" "annual" "new").toOption.isSome = true ↔
      ("us".toUpper ∈ ["US", "UK", "IN"])) :=
  ⟨us_take_home_fallback_defaults.1 1000 "married" "other" (by decide),
   us_take_home_fallback_defaults.2.1 1000 "single" "ZZ" (by decide),
   us_take_home_fallback_defaults.2.2 1000 "us" "single" "other" "annual" "new"⟩

/-! ## Claim: behavior of the payment helper for termMonths ≤ 0 -/

/-- Counterexample to the claim: with `termMonths = 0` the helper either
returns the value `0` (zero rate) or raises `ZeroDivisionError` (positive
rate); it never raises an `InvalidInput` error. -/
theorem monthly_payment_nonpositive_term_gap :
    monthly_payment 1000 0 0 = some 0 ∧ monthly_payment 1000 5 0 = none := by
  constructor
  · norm_num [monthly_payment]
  · norm_num [monthly_payment, monthlyRate]

/-- The helper performs no term validation itself: `termMonths = 0` returns
`0` at zero rate and raises `ZeroDivisionError` at any non-zero rate;
`termMonths < 0` at a positive rate returns a value.  The `InvalidInput`
rejection of non-positive terms exists only in the repayment API route's
validation (`term_years` must lie in 1..40). -/
theorem monthly_payment_nonpositive_term_behavior :
    (∀ p : ℚ, monthly_payment p 0 0 = some 0) ∧
    (∀ (p r : ℚ), r ≠ 0 → monthly_payment p r 0 = none) ∧
    (∀ (p r : ℚ) (t : ℤ), 0 < r → t < 0 → ∃ v, monthly_payment p r t = some v) ∧
    (∀ (p r ty : ℚ), 1000 ≤ p → p ≤ 100000000 → 0 ≤ r → r ≤ 30 → ty < 1 →
      ∃ msg, api_repayment (some p) (some r) (some ty) = some (Except.error msg)) := by
  refine ⟨?_, ?_, ?_, ?_⟩
  · intro p; norm_num [monthly_payment]
  · intro p r hr; norm_num [monthly_payment, hr]
  · intro p r t hr ht
    have hmr : 0 < monthlyRate r := by unfold monthlyRate; positivity
    have h1r : 1 < 1 + monthlyRate r := by linarith
    obtain ⟨n, hn, hnpos⟩ : ∃ n : ℕ, t = -(n : ℤ) ∧ 0 < n :=
      ⟨(-t).toNat, by omega, by omega⟩
    have hz : (1 + monthlyRate r) ^ t < 1 := by
      rw [hn, zpow_neg, zpow_natCast]
      exact inv_lt_one_of_one_lt₀ (one_lt_pow₀ h1r (by omega))
    unfold monthly_payment
    rw [if_neg (ne_of_gt hr), if_neg (fun h => by linarith [h.1] : _),
      if_neg (fun h : (1 + monthlyRate r) ^ t - 1 = 0 => by linarith)]
    exact ⟨_, rfl⟩
  · intro p r ty hp1 hp2 hr1 hr2 hty
    simp only [api_repayment, validate_number, if_pos (And.intro hp1 hp2),
      if_pos (And.intro hr1 hr2),
      if_neg (show ¬((1 : ℚ) ≤ ty ∧ ty ≤ 40) from fun h => absurd h.1 (not_le.2 hty))]
    exact ⟨_, rfl⟩

theorem monthly_payment_nonpositive_term_behavior_witness :
    monthly_payment 7 0 0 = some 0 ∧ monthly_payment 7 3 0 = none ∧
    (∃ v, monthly_payment 7 3 (-2) = some v) ∧
    (∃ msg, api_repayment (some 100000) (some 5) (some 0) = some (Except.error msg)) :=
  ⟨monthly_payment_nonpositive_term_behavior.1 7,
   monthly_payment_nonpositive_term_behavior.2.1 7 3 (by norm_num),
   monthly_payment_nonpositive_term_behavior.2.2.1 7 3 (-2) (by norm_num) (by norm_num),
   monthly_payment_nonpositive_term_behavior.2.2.2 100000 5 0 (by norm_num) (by norm_num)
     (by norm_num) (by norm_num) (by norm_num)⟩

/-! ## Annuity engine lemmas -/

theorem round2_zero : round2 0 = 0 := by
  norm_num [round2, Rat.floor_def']

theorem monthlyRate_pos {r : ℚ} (hr : 0 < r) : 0 < monthlyRate r := by
  unfold monthlyRate; positivity

theorem monthly_payment_pos_rate (p r : ℚ) (n : ℕ) (hr : 0 < r) (hn : 1 ≤ n) :
    monthly_payment p r (n : ℤ) = some (annuity_payment p r n) := by
  have hmr : 0 < monthlyRate r := monthlyRate_pos hr
  have hX : 1 < (1 + monthlyRate r) ^ n := one_lt_pow₀ (by linarith) (by omega)
  simp only [monthly_payment, annuity_payment, zpow_natCast]
  rw [if_neg (ne_of_gt hr), if_neg (fun h => by linarith [h.1]),
    if_neg (fun h : (1 + monthlyRate r) ^ n - 1 = 0 => by linarith)]

theorem monthly_payment_zero_rate (p : ℚ) (n : ℕ) (hn : 1 ≤ n) :
    monthly_payment p 0 (n : ℤ) = some (p / n) := by
  have h : ¬((n : ℤ) = 0) := by
    simp only [Int.natCast_eq_zero]
    omega
  unfold monthly_payment
  rw [if_pos rfl, if_neg h]
  norm_num

theorem annuity_payment_nonneg (p r : ℚ) (n : ℕ) (hp : 0 ≤ p) (hr : 0 < r) (hn : 1 ≤ n) :
    0 ≤ annuity_payment p r n := by
  have hmr : 0 < monthlyRate r := monthlyRate_pos hr
  have hX : 1 < (1 + monthlyRate r) ^ n := one_lt_pow₀ (by linarith) (by omega)
  unfold annuity_payment
  have hnum : 0 ≤ p * (monthlyRate r * (1 + monthlyRate r) ^ n) := by positivity
  exact div_nonneg hnum (by linarith)

theorem annuity_payment_ge_rate (p r : ℚ) (n : ℕ) (hp : 0 ≤ p) (hr : 0 < r) (hn : 1 ≤ n) :
    p * monthlyRate r ≤ annuity_payment p r n := by
  have hmr : 0 < monthlyRate r := monthlyRate_pos hr
  have hX : 1 < (1 + monthlyRate r) ^ n := one_lt_pow₀ (by linarith) (by omega)
  unfold annuity_payment
  rw [le_div_iff₀ (by linarith)]
  have h0 : 0 ≤ p * monthlyRate r := by positivity
  nlinarith [h0, hX]

theorem geom_bound (mr : ℚ) (h : 0 ≤ mr) (n : ℕ) :
    (1 + mr) ^ n - 1 ≤ (n : ℚ) * mr * (1 + mr) ^ n := by
  induction n with
  | zero => simp
  | succ k ih =>
    have hX : (0 : ℚ) ≤ (1 + mr) ^ k := pow_nonneg (by linarith) k
    have hkc : (0 : ℚ) ≤ (k : ℚ) := Nat.cast_nonneg k
    rw [pow_succ]
    push_cast
    nlinarith [ih, hX, hkc, mul_nonneg (mul_nonneg hkc h) hX,
      mul_nonneg (mul_nonneg (mul_nonneg hkc h) hX) h, mul_nonneg (mul_nonneg h hX) h]

theorem annuity_payment_covers (p r : ℚ) (n : ℕ) (hp : 0 ≤ p) (hr : 0 < r) (hn : 1 ≤ n) :
    p ≤ annuity_payment p r n * n := by
  have hmr : 0 < monthlyRate r := monthlyRate_pos hr
  have hX : 1 < (1 + monthlyRate r) ^ n := one_lt_pow₀ (by linarith) (by omega)
  have hgeom := geom_bound (monthlyRate r) hmr.le n
  unfold annuity_payment
  rw [div_mul_eq_mul_div, le_div_iff₀ (by linarith)]
  nlinarith [mul_le_mul_of_nonneg_left hgeom hp]

theorem annuityU_zero (p pay mr : ℚ) : annuityU p pay mr 0 = p * mr := by
  simp [annuityU]

theorem annuityU_succ (p pay mr : ℚ) (m : ℕ) :
    annuityU p pay mr (m + 1) = (1 + mr) * annuityU p pay mr m - pay * mr := by
  unfold annuityU
  rw [pow_succ]
  ring

theorem annuityU_neg_persist (p pay mr : ℚ) (hmr : 0 < mr) (hpay : 0 ≤ pay) (m : ℕ) :
    ∀ k, annuityU p pay mr m < 0 → annuityU p pay mr (m + k) < 0 := by
  intro k
  induction k with
  | zero => intro h; simpa using h
  | succ j ih =>
    intro h
    have hj := ih h
    have : m + (j + 1) = (m + j) + 1 := by omega
    rw [this, annuityU_succ]
    nlinarith [hj, hmr, hpay]

theorem annuityU_nonneg (p pay mr : ℚ) (n : ℕ) (hmr : 0 < mr) (hpay : 0 ≤ pay)
    (hUn : annuityU p pay mr n = 0) {m : ℕ} (hm : m ≤ n) : 0 ≤ annuityU p pay mr m := by
  by_contra h
  push_neg at h
  have := annuityU_neg_persist p pay mr hmr hpay m (n - m) h
  rw [show m + (n - m) = n from by omega] at this
  linarith

theorem amortStep_eq (r pay b : ℚ) : amortStep r pay b = max (b * (1 + r) - pay) 0 := by
  unfold amortStep
  congr 1
  ring

theorem amortBal_zero (r pay b : ℚ) : amortBal r pay b 0 = b := rfl

theorem amortBal_succ (r pay b : ℚ) (m : ℕ) :
    amortBal r pay b (m + 1) = amortStep r pay (amortBal r pay b m) :=
  Function.iterate_succ_apply' (amortStep r pay) m b

theorem amortBal_shift (r pay b : ℚ) (m : ℕ) :
    amortBal r pay (amortStep r pay b) m = amortBal r pay b (m + 1) :=
  (Function.iterate_succ_apply (amortStep r pay) m b).symm

theorem amortBal_eq_U (p pay mr : ℚ) (n : ℕ) (hmr : 0 < mr) (hpay : 0 ≤ pay)
    (hUn : annuityU p pay mr n = 0) :
    ∀ m, m ≤ n → amortBal mr pay p m = annuityU p pay mr m / mr := by
  intro m
  induction m with
  | zero =>
    intro _
    rw [amortBal_zero, annuityU_zero, mul_div_assoc, div_self (ne_of_gt hmr), mul_one]
  | succ k ih =>
    intro hk
    have hk' : k ≤ n := by omega
    rw [amortBal_succ, ih hk', amortStep_eq]
    have hU1 : 0 ≤ annuityU p pay mr (k + 1) := annuityU_nonneg p pay mr n hmr hpay hUn hk
    have he : annuityU p pay mr k / mr * (1 + mr) - pay = annuityU p pay mr (k + 1) / mr := by
      rw [annuityU_succ]
      field_simp
      ring
    rw [he, max_eq_left (div_nonneg hU1 hmr.le)]

theorem annuity_payment_rel (p r : ℚ) (n : ℕ) (hr : 0 < r) (hn : 1 ≤ n) :
    annuity_payment p r n * ((1 + monthlyRate r) ^ n - 1) =
      p * monthlyRate r * (1 + monthlyRate r) ^ n := by
  have hmr : 0 < monthlyRate r := monthlyRate_pos hr
  have hX : 1 < (1 + monthlyRate r) ^ n := one_lt_pow₀ (by linarith) (by omega)
  unfold annuity_payment
  rw [div_mul_cancel₀ _ (by linarith : (1 + monthlyRate r) ^ n - 1 ≠ 0)]
  ring

theorem amortBal_term_zero (p r : ℚ) (n : ℕ) (hp : 0 ≤ p) (hr : 0 < r) (hn : 1 ≤ n) :
    amortBal (monthlyRate r) (annuity_payment p r n) p n = 0 := by
  have hmr : 0 < monthlyRate r := monthlyRate_pos hr
  have hpay : 0 ≤ annuity_payment p r n := annuity_payment_nonneg p r n hp hr hn
  have hrel := annuity_payment_rel p r n hr hn
  have hUn : annuityU p (annuity_payment p r n) (monthlyRate r) n = 0 := by
    unfold annuityU
    linarith
  rw [amortBal_eq_U p (annuity_payment p r n) (monthlyRate r) n hmr hpay hUn n le_rfl, hUn,
    zero_div]

theorem amortRows_length (r pay : ℚ) :
    ∀ (k : ℕ) (b : ℚ) (m : ℕ), (amortRows r pay b m k).length = k := by
  intro k
  induction k with
  | zero => intro b m; rfl
  | succ k ih => intro b m; simp [amortRows, ih]

theorem amortRows_get (r pay : ℚ) :
    ∀ (k i : ℕ) (b : ℚ) (m : ℕ) (h : i < (amortRows r pay b m k).length),
      (amortRows r pay b m k).get ⟨i, h⟩ =
        ⟨m + i, round2 pay, round2 (pay - amortBal r pay b i * r),
         round2 (amortBal r pay b i * r), round2 (amortBal r pay b (i + 1))⟩ := by
  intro k
  induction k with
  | zero =>
    intro i b m h
    rw [amortRows_length] at h
    omega
  | succ k ih =>
    intro i b m h
    match i with
    | 0 =>
      simp only [amortRows, List.get_cons_zero]
      rw [amortBal_zero]
      have h1 : amortBal r pay b 1 = amortStep r pay b := amortBal_succ r pay b 0
      rw [show (0 : ℕ) + 1 = 1 from rfl, h1]
      simp [amortStep]
    | i' + 1 =>
      have h' : i' < (amortRows r pay (max (b - (pay - b * r)) 0) (m + 1) k).length := by
        rw [amortRows_length]
        rw [amortRows_length] at h
        omega
      simp only [amortRows, List.get_cons_succ]
      rw [ih i' (max (b - (pay - b * r)) 0) (m + 1) h']
      have hb2 : max (b - (pay - b * r)) 0 = amortStep r pay b := rfl
      rw [hb2, amortBal_shift, amortBal_shift]
      congr 1
      omega

theorem amortStep_le (r pay b : ℚ) (_hr : 0 ≤ r) (hb : 0 ≤ b) (hbr : b * r ≤ pay) :
    amortStep r pay b ≤ b := by
  rw [amortStep_eq]
  have h1 : b * (1 + r) - pay ≤ b := by nlinarith
  exact max_le h1 hb

theorem amortStep_nonneg (r pay b : ℚ) : 0 ≤ amortStep r pay b := le_max_right _ _

theorem amortBal_invariant (r pay b : ℚ) (hr : 0 ≤ r) (hb : 0 ≤ b) (hbr : b * r ≤ pay) :
    ∀ i, 0 ≤ amortBal r pay b i ∧ amortBal r pay b i * r ≤ pay ∧
      amortBal r pay b (i + 1) ≤ amortBal r pay b i := by
  intro i
  induction i with
  | zero =>
    refine ⟨hb, by simpa [amortBal_zero] using hbr, ?_⟩
    rw [amortBal_succ, amortBal_zero]
    exact amortStep_le r pay b hr hb hbr
  | succ k ih =>
    obtain ⟨h0, h1, h2⟩ := ih
    have h0' : 0 ≤ amortBal r pay b (k + 1) := by
      rw [amortBal_succ]
      exact amortStep_nonneg r pay _
    have h1' : amortBal r pay b (k + 1) * r ≤ pay :=
      le_trans (mul_le_mul_of_nonneg_right h2 hr) h1
    refine ⟨h0', h1', ?_⟩
    rw [amortBal_succ (m := k + 1)]
    exact amortStep_le r pay _ hr h0' h1'

/-! ## Claim: amortization schedule invariants -/

/-- The schedule has exactly one row per month `1..n` in strictly
increasing order, and the reported ending balance is non-increasing row to
row and never negative. -/
theorem amortize_schedule_invariants (p r : ℚ) (n : ℕ) (s : List AmortRow)
    (hp : 0 ≤ p) (hr : 0 ≤ r) (hn : 1 ≤ n) (hs : amortize p r (n : ℤ) = some s) :
    s.length = n ∧
    (∀ i (h : i < s.length), (s.get ⟨i, h⟩).month = i + 1) ∧
    (∀ i (h : i + 1 < s.length),
      (s.get ⟨i + 1, h⟩).balance ≤ (s.get ⟨i, Nat.lt_of_succ_lt h⟩).balance) ∧
    (∀ i (h : i < s.length), 0 ≤ (s.get ⟨i, h⟩).balance) := by
  obtain ⟨pay, hpay, hrows⟩ : ∃ pay, monthly_payment p r (n : ℤ) = some pay ∧
      amortRows (monthlyRate r) pay p 1 (n : ℤ).toNat = s := by
    simpa [amortize, Option.map_eq_some'] using hs
  rw [Int.toNat_natCast] at hrows
  have hmr : 0 ≤ monthlyRate r := by unfold monthlyRate; positivity
  have hkey : 0 ≤ pay ∧ p * monthlyRate r ≤ pay := by
    rcases eq_or_lt_of_le hr with hr0 | hrpos
    · rw [← hr0] at hpay
      rw [monthly_payment_zero_rate p n hn] at hpay
      have : pay = p / n := by injection hpay.symm
      subst this
      constructor
      · positivity
      · rw [← hr0]
        simp only [monthlyRate]
        norm_num
        positivity
    · rw [monthly_payment_pos_rate p r n hrpos hn] at hpay
      have : pay = annuity_payment p r n := by injection hpay.symm
      subst this
      exact ⟨annuity_payment_nonneg p r n hp hrpos hn,
        annuity_payment_ge_rate p r n hp hrpos hn⟩
  have hinv := amortBal_invariant (monthlyRate r) pay p hmr hp hkey.2
  subst hrows
  refine ⟨amortRows_length _ _ _ _ _, ?_, ?_, ?_⟩
  · intro i h
    rw [amortRows_get _ _ _ i p 1 h]
    show 1 + i = i + 1
    omega
  · intro i h
    rw [amortRows_get _ _ _ (i + 1) p 1 h,
      amortRows_get _ _ _ i p 1 (Nat.lt_of_succ_lt h)]
    exact round2_mono (hinv (i + 1)).2.2
  · intro i h
    rw [amortRows_get _ _ _ i p 1 h]
    exact round2_nonneg (hinv (i + 1)).1

theorem amortize_schedule_invariants_witness :
    ([⟨1, 500, 500, 0, 500⟩, ⟨2, 500, 500, 0, 0⟩] : List AmortRow).length = 2 ∧
    (∀ i (h : i < ([⟨1, 500, 500, 0, 500⟩, ⟨2, 500, 500, 0, 0⟩] : List AmortRow).length),
      (([⟨1, 500, 500, 0, 500⟩, ⟨2, 500, 500, 0, 0⟩] : List AmortRow).get ⟨i, h⟩).month = i + 1) ∧
    (∀ i (h : i + 1 < ([⟨1, 500, 500, 0, 500⟩, ⟨2, 500, 500, 0, 0⟩] : List AmortRow).length),
      (([⟨1, 500, 500, 0, 500⟩, ⟨2, 500, 500, 0, 0⟩] : List AmortRow).get ⟨i + 1, h⟩).balance ≤
        (([⟨1, 500, 500, 0, 500⟩, ⟨2, 500, 500, 0, 0⟩] : List AmortRow).get
          ⟨i, Nat.lt_of_succ_lt h⟩).balance) ∧
    (∀ i (h : i < ([⟨1, 500, 500, 0, 500⟩, ⟨2, 500, 500, 0, 0⟩] : List AmortRow).length),
      0 ≤ (([⟨1, 500, 500, 0, 500⟩, ⟨2, 500, 500, 0, 0⟩] : List AmortRow).get ⟨i, h⟩).balance) :=
  amortize_schedule_invariants 1000 0 2 _ (by norm_num) (by norm_num) (by norm_num) (by decide)

/-! ## Claim: payment covers principal; final balance is zero -/

/-- For principal ≥ 0, positive rate and term ≥ 1 month: the monthly
payment times the term is at least the principal, and the final row of the
amortization schedule reports an ending balance of exactly 0. -/
theorem monthly_payment_covers_principal_final_zero (p r : ℚ) (n : ℕ) (pay : ℚ)
    (s : List AmortRow) (hp : 0 ≤ p) (hr : 0 < r) (hn : 1 ≤ n)
    (hpay : monthly_payment p r (n : ℤ) = some pay) (hs : amortize p r (n : ℤ) = some s) :
    p ≤ pay * n ∧ s.getLast?.map AmortRow.balance = some 0 := by
  rw [monthly_payment_pos_rate p r n hr hn] at hpay
  have hpayeq : pay = annuity_payment p r n := by injection hpay.symm
  subst hpayeq
  obtain ⟨pay', hpay', hrows⟩ : ∃ pay', monthly_payment p r (n : ℤ) = some pay' ∧
      amortRows (monthlyRate r) pay' p 1 (n : ℤ).toNat = s := by
    simpa [amortize, Option.map_eq_some'] using hs
  rw [monthly_payment_pos_rate p r n hr hn] at hpay'
  have hpayeq' : pay' = annuity_payment p r n := by injection hpay'.symm
  subst hpayeq'
  rw [Int.toNat_natCast] at hrows
  subst hrows
  refine ⟨annuity_payment_covers p r n hp hr hn, ?_⟩
  have hlen : (amortRows (monthlyRate r) (annuity_payment p r n) p 1 n).length = n :=
    amortRows_length _ _ _ _ _
  have hidx : n - 1 < (amortRows (monthlyRate r) (annuity_payment p r n) p 1 n).length := by
    omega
  rw [List.getLast?_eq_getElem?, hlen, List.getElem?_eq_getElem hidx, Option.map_some']
  have hget : (amortRows (monthlyRate r) (annuity_payment p r n) p 1 n)[n - 1] =
      (amortRows (monthlyRate r) (annuity_payment p r n) p 1 n).get ⟨n - 1, hidx⟩ := rfl
  rw [hget, amortRows_get _ _ _ _ p 1 hidx]
  show some (round2 (amortBal (monthlyRate r) (annuity_payment p r n) p (n - 1 + 1))) = some 0
  rw [show n - 1 + 1 = n from by omega, amortBal_term_zero p r n hp hr hn, round2_zero]

theorem monthly_payment_covers_principal_final_zero_witness :
    (1000 : ℚ) ≤ 102010 / 201 * (2 : ℕ) ∧
    ([⟨1, 50751 / 100, 49751 / 100, 10, 50249 / 100⟩,
      ⟨2, 50751 / 100, 50249 / 100, 251 / 50, 0⟩] : List AmortRow).getLast?.map
        AmortRow.balance = some 0 :=
  monthly_payment_covers_principal_final_zero 1000 12 2 (102010 / 201)
    [⟨1, 50751 / 100, 49751 / 100, 10, 50249 / 100⟩, ⟨2, 50751 / 100, 50249 / 100, 251 / 50, 0⟩]
    (by norm_num) (by norm_num) (by norm_num) (by decide) (by decide)

/-! ## Credit-card payoff lemmas -/

theorem payoffStep_eq (mr pct fl e b : ℚ) :
    payoffStep mr pct fl e b = max (b * (1 + mr) - (max (b * pct / 100) fl + e)) 0 := by
  simp only [payoffStep]
  rcases le_total (max (b * pct / 100) fl + e) (b + b * mr) with h | h
  · rw [min_eq_left h]
    congr 1
    ring
  · rw [min_eq_right h]
    rw [show b - (b + b * mr - b * mr) = 0 from by ring, max_self]
    symm
    rw [max_eq_right]
    linarith

theorem payoffStep_mono (mr pct fl e b1 b2 : ℚ) (hmr : 0 ≤ mr) (he : 0 ≤ e)
    (hb1 : 0 ≤ b1) (hb : b1 ≤ b2) :
    payoffStep mr pct fl e b1 ≤ payoffStep mr pct fl 0 b2 := by
  rw [payoffStep_eq, payoffStep_eq, mul_div_assoc, mul_div_assoc]
  have hb2 : 0 ≤ b2 := le_trans hb1 hb
  rcases le_or_lt (pct / 100) (1 + mr) with hq | hq
  · refine max_le_max ?_ (le_refl 0)
    have hd : 0 ≤ (b2 - b1) * (1 + mr - pct / 100) :=
      mul_nonneg (sub_nonneg.2 hb) (sub_nonneg.2 hq)
    have hd2 : 0 ≤ (b2 - b1) * (1 + mr) :=
      mul_nonneg (sub_nonneg.2 hb) (by linarith)
    rcases max_cases (b1 * (pct / 100)) fl with ⟨e1, h1⟩ | ⟨e1, h1⟩ <;>
      rcases max_cases (b2 * (pct / 100)) fl with ⟨e2, h2⟩ | ⟨e2, h2⟩ <;>
      rw [e1, e2] <;> nlinarith [hd, hd2, he]
  · have h1 : b1 * (1 + mr) - (max (b1 * (pct / 100)) fl + e) ≤ 0 := by
      have hle : b1 * (pct / 100) ≤ max (b1 * (pct / 100)) fl := le_max_left _ _
      nlinarith [mul_nonneg hb1 (le_of_lt (sub_pos.2 hq))]
    have h2 : b2 * (1 + mr) - (max (b2 * (pct / 100)) fl + 0) ≤ 0 := by
      have hle : b2 * (pct / 100) ≤ max (b2 * (pct / 100)) fl := le_max_left _ _
      nlinarith [mul_nonneg hb2 (le_of_lt (sub_pos.2 hq))]
    rw [max_eq_right h1, max_eq_right h2]

theorem payoff_go_progress (mr pct fl e : ℚ) (hmr : 0 ≤ mr) :
    ∀ (fuel months : ℕ) (b ti tp : ℚ) (sched : List CCRow), 0 ≤ b →
      months ≤ (payoff_go mr pct fl e fuel months b ti tp sched).months ∧
      ti ≤ (payoff_go mr pct fl e fuel months b ti tp sched).total_interest := by
  intro fuel
  induction fuel with
  | zero => intro months b ti tp sched _; exact ⟨le_refl _, le_refl _⟩
  | succ k ih =>
    intro months b ti tp sched hb
    by_cases hcond : b > 0.01
    · simp only [payoff_go, if_pos hcond]
      refine ⟨le_trans (Nat.le_succ months) (ih _ _ _ _ _ (le_max_right _ _)).1,
        le_trans ?_ (ih _ _ _ _ _ (le_max_right _ _)).2⟩
      nlinarith [mul_nonneg hb hmr]
    · simp only [payoff_go, if_neg hcond]
      exact ⟨le_refl _, le_refl _⟩

theorem payoff_go_mono (mr pct fl e : ℚ) (hmr : 0 ≤ mr) (he : 0 ≤ e) :
    ∀ (fuel months : ℕ) (b1 b2 ti1 ti2 tp1 tp2 : ℚ) (s1 s2 : List CCRow),
      0 ≤ b1 → b1 ≤ b2 → ti1 ≤ ti2 →
      (payoff_go mr pct fl e fuel months b1 ti1 tp1 s1).months ≤
        (payoff_go mr pct fl 0 fuel months b2 ti2 tp2 s2).months ∧
      (payoff_go mr pct fl e fuel months b1 ti1 tp1 s1).total_interest ≤
        (payoff_go mr pct fl 0 fuel months b2 ti2 tp2 s2).total_interest := by
  intro fuel
  induction fuel with
  | zero =>
    intro months b1 b2 ti1 ti2 tp1 tp2 s1 s2 _ _ ht
    exact ⟨le_refl _, ht⟩
  | succ k ih =>
    intro months b1 b2 ti1 ti2 tp1 tp2 s1 s2 hb1 hb ht
    by_cases h1 : b1 > 0.01
    · have h2 : b2 > 0.01 := lt_of_lt_of_le h1 hb
      simp only [payoff_go, if_pos h1, if_pos h2]
      apply ih
      · exact le_max_right _ _
      · show payoffStep mr pct fl e b1 ≤ payoffStep mr pct fl 0 b2
        exact payoffStep_mono mr pct fl e b1 b2 hmr he hb1 hb
      · have : b1 * mr ≤ b2 * mr := mul_le_mul_of_nonneg_right hb hmr
        linarith
    · simp only [payoff_go, if_neg h1]
      by_cases h2 : b2 > 0.01
      · simp only [if_pos h2]
        have hb2 : (0 : ℚ) ≤ b2 := le_trans hb1 hb
        refine ⟨le_trans (Nat.le_succ months)
          (payoff_go_progress mr pct fl 0 hmr k (months + 1) _ _ _ _ (le_max_right _ _)).1,
          le_trans ?_
          (payoff_go_progress mr pct fl 0 hmr k (months + 1) _ _ _ _ (le_max_right _ _)).2⟩
        nlinarith [mul_nonneg hb2 hmr]
      · simp only [if_neg h2]
        exact ⟨le_refl _, ht⟩

theorem payoff_go_months_le (mr pct fl e : ℚ) :
    ∀ (fuel months : ℕ) (b ti tp : ℚ) (s : List CCRow),
      (payoff_go mr pct fl e fuel months b ti tp s).months ≤ months + fuel := by
  intro fuel
  induction fuel with
  | zero => intro months b ti tp s; exact Nat.le_of_eq rfl
  | succ k ih =>
    intro months b ti tp s
    by_cases h : b > 0.01
    · simp only [payoff_go, if_pos h]
      exact le_trans (ih _ _ _ _ _) (by omega)
    · simp only [payoff_go, if_neg h]
      omega

/-! ## Claim: extra payments never hurt -/

/-- With any extra payment ≥ 0, the payoff simulation takes no more months
and accrues no more total interest than with extra = 0. -/
theorem payoff_sim_extra_mono (bal apr pct fl extra : ℚ)
    (hbal : 0 < bal) (hapr : 0 ≤ apr) (he : 0 ≤ extra) :
    (payoff_sim (apr / 100 / 12) pct fl bal extra).months ≤
      (payoff_sim (apr / 100 / 12) pct fl bal 0).months ∧
    (payoff_sim (apr / 100 / 12) pct fl bal extra).total_interest ≤
      (payoff_sim (apr / 100 / 12) pct fl bal 0).total_interest := by
  have hmr : 0 ≤ apr / 100 / 12 := by positivity
  unfold payoff_sim
  exact payoff_go_mono _ pct fl extra hmr he 600 0 bal bal 0 0 0 0 [] []
    hbal.le le_rfl le_rfl

theorem payoff_sim_extra_mono_witness :
    (payoff_sim ((0 : ℚ) / 100 / 12) 0 50 100 10).months ≤
      (payoff_sim ((0 : ℚ) / 100 / 12) 0 50 100 0).months ∧
    (payoff_sim ((0 : ℚ) / 100 / 12) 0 50 100 10).total_interest ≤
      (payoff_sim ((0 : ℚ) / 100 / 12) 0 50 100 0).total_interest :=
  payoff_sim_extra_mono 100 0 0 50 10 (by norm_num) (by norm_num) (by norm_num)

/-! ## Claim: hitting the 600-month cap is not surfaced distinctly -/

theorem payoff_go_months_indep (mr pct fl e : ℚ) :
    ∀ (fuel months : ℕ) (b ti1 tp1 ti2 tp2 : ℚ) (s1 s2 : List CCRow),
      (payoff_go mr pct fl e fuel months b ti1 tp1 s1).months =
      (payoff_go mr pct fl e fuel months b ti2 tp2 s2).months := by
  intro fuel
  induction fuel with
  | zero => intro months b ti1 tp1 ti2 tp2 s1 s2; rfl
  | succ k ih =>
    intro months b ti1 tp1 ti2 tp2 s1 s2
    by_cases hb : b > 0.01
    · simp only [payoff_go, if_pos hb]
      exact ih _ _ _ _ _ _ _ _
    · simp only [payoff_go, if_neg hb]

theorem payoff_go_months_step (mr pct fl e : ℚ) (k months : ℕ) (b ti tp : ℚ)
    (s : List CCRow) (hb : b > 0.01) :
    (payoff_go mr pct fl e (k + 1) months b ti tp s).months =
    (payoff_go mr pct fl e k (months + 1) (payoffStep mr pct fl e b) 0 0 []).months := by
  simp only [payoff_go, if_pos hb]
  exact payoff_go_months_indep mr pct fl e k (months + 1) (payoffStep mr pct fl e b)
    _ _ 0 0 _ []

theorem payoffStep_const5000 : payoffStep 0 0 0 0 5000 = 5000 := by
  simp only [payoffStep]
  norm_num

theorem payoff_go_const5000 : ∀ (fuel months : ℕ) (ti tp : ℚ) (s : List CCRow),
    (payoff_go 0 0 0 0 fuel months 5000 ti tp s).months = months + fuel := by
  intro fuel
  induction fuel with
  | zero => intro months ti tp s; rfl
  | succ k ih =>
    intro months ti tp s
    rw [payoff_go_months_step 0 0 0 0 k months 5000 ti tp s (by norm_num),
      payoffStep_const5000, ih]
    omega

theorem payoffBal_const5000 : ∀ m, payoffBal 0 0 0 0 5000 m = 5000 := by
  intro m
  induction m with
  | zero => rfl
  | succ k ih =>
    show payoffBal 0 0 0 0 (if (5000 : ℚ) > 0.01 then payoffStep 0 0 0 0 5000 else 5000) k = 5000
    rw [if_pos (by norm_num : (5000 : ℚ) > 0.01), payoffStep_const5000]
    exact ih

theorem payoffStep_countdown (b : ℚ) (hb : 1 ≤ b) : payoffStep 0 0 1 0 b = b - 1 := by
  rw [payoffStep_eq, show b * 0 / 100 = (0 : ℚ) from by norm_num,
    show max (0 : ℚ) 1 = 1 from by norm_num,
    show b * (1 + 0) - (1 + 0) = b - 1 from by ring]
  exact max_eq_left (by linarith)

theorem payoff_go_countdown : ∀ (k months : ℕ) (ti tp : ℚ) (s : List CCRow),
    (payoff_go 0 0 1 0 k months ((k : ℚ) - 1 / 2) ti tp s).months = months + k := by
  intro k
  induction k with
  | zero => intro months ti tp s; rfl
  | succ k ih =>
    intro months ti tp s
    have hk0 : (0 : ℚ) ≤ (k : ℚ) := Nat.cast_nonneg k
    have hb : ((k + 1 : ℕ) : ℚ) - 1 / 2 > 0.01 := by push_cast; linarith
    rw [payoff_go_months_step 0 0 1 0 k months _ ti tp s hb]
    rcases Nat.eq_zero_or_pos k with hk | hk
    · subst hk
      norm_num [payoff_go]
    · have hk1 : (1 : ℚ) ≤ (k : ℚ) := by exact_mod_cast hk
      rw [show payoffStep 0 0 1 0 (((k + 1 : ℕ) : ℚ) - 1 / 2) = (k : ℚ) - 1 / 2 from by
          rw [payoffStep_countdown _ (by push_cast; linarith)]
          push_cast
          ring]
      rw [ih]
      omega

theorem payoffBal_countdown : ∀ k : ℕ, 1 ≤ k → payoffBal 0 0 1 0 ((k : ℚ) - 1 / 2) k = 0 := by
  intro k
  induction k with
  | zero => intro h; omega
  | succ k ih =>
    intro _
    rcases Nat.eq_zero_or_pos k with hk | hk
    · subst hk
      show payoffBal 0 0 1 0
        (if ((1 : ℕ) : ℚ) - 1 / 2 > 0.01 then payoffStep 0 0 1 0 (((1 : ℕ) : ℚ) - 1 / 2)
          else ((1 : ℕ) : ℚ) - 1 / 2) 0 = 0
      rw [if_pos (by norm_num : ((1 : ℕ) : ℚ) - 1 / 2 > 0.01)]
      show payoffStep 0 0 1 0 (((1 : ℕ) : ℚ) - 1 / 2) = 0
      simp only [payoffStep]
      norm_num
    · have hk1 : (1 : ℚ) ≤ (k : ℚ) := by exact_mod_cast hk
      have hb : ((k + 1 : ℕ) : ℚ) - 1 / 2 > 0.01 := by push_cast; linarith
      show payoffBal 0 0 1 0
        (if ((k + 1 : ℕ) : ℚ) - 1 / 2 > 0.01 then payoffStep 0 0 1 0 (((k + 1 : ℕ) : ℚ) - 1 / 2)
          else ((k + 1 : ℕ) : ℚ) - 1 / 2) k = 0
      rw [if_pos hb, show payoffStep 0 0 1 0 (((k + 1 : ℕ) : ℚ) - 1 / 2) = (k : ℚ) - 1 / 2 from by
        rw [payoffStep_countdown _ (by push_cast; linarith)]
        push_cast
        ring]
      exact ih hk

/-- Counterexample: a non-convergent input (balance 5000, zero rate, zero
minimum) runs to the 600-month cap with the balance still 5000 > 0.01, yet
the API returns a normal `ok` response with `months_to_payoff = 600` —
identical in shape and months count to the convergent input 599.5 with a
floor payment of 1, which pays off to 0 in exactly 600 months.  The caller
cannot distinguish the two outcomes. -/
theorem credit_card_cap_not_distinguished :
    (api_credit_card (some 5000) 0 0 0 0).toOption.map
        (fun d => d.with_extra.months_to_payoff) = some 600 ∧
    payoffBal 0 0 0 0 5000 600 = 5000 ∧ ((0.01 : ℚ) < 5000) ∧
    (api_credit_card (some (1199 / 2)) 0 0 1 0).toOption.map
        (fun d => d.with_extra.months_to_payoff) = some 600 ∧
    payoffBal 0 0 1 0 (1199 / 2) 600 = 0 ∧ ((0 : ℚ) ≤ 0.01) := by
  refine ⟨?_, payoffBal_const5000 600, by norm_num, ?_, ?_⟩
  · simp only [api_credit_card, payoff_sim, Except.toOption, Option.map]
    rw [show ((0 : ℚ) / 100 / 12) = 0 from by norm_num, payoff_go_const5000 600 0 0 0 []]
  · simp only [api_credit_card, payoff_sim, Except.toOption, Option.map]
    rw [show ((0 : ℚ) / 100 / 12) = 0 from by norm_num,
      show ((1199 : ℚ) / 2) = ((600 : ℕ) : ℚ) - 1 / 2 from by norm_num,
      payoff_go_countdown 600 0 0 0 []]
  · refine ⟨?_, by norm_num⟩
    rw [show ((1199 : ℚ) / 2) = ((600 : ℕ) : ℚ) - 1 / 2 from by norm_num]
    exact payoffBal_countdown 600 (by omega)

/-- What the code actually does at the cap: the month count never exceeds
600, and the credit-card API (with a present balance) always returns an
`ok` response — there is no distinct non-convergence outcome. -/
theorem payoff_sim_cap_behavior :
    (∀ (mr pct fl bal extra : ℚ), (payoff_sim mr pct fl bal extra).months ≤ 600) ∧
    (∀ (bal apr pct fl extra : ℚ),
      (api_credit_card (some bal) apr pct fl extra).toOption.isSome = true) := by
  constructor
  · intro mr pct fl bal extra
    unfold payoff_sim
    simpa using payoff_go_months_le mr pct fl extra 600 0 bal 0 0 []
  · intro bal apr pct fl extra
    rfl

/-! ## Claim: rent-vs-buy breakeven is the first crossing year -/

theorem rvbYearStep_spec (P : RVBParams) (amort : List AmortRow) (pmt loan : ℚ)
    (yr : ℕ) (st : RVBState) :
    ∃ row : RVBYear,
      (rvbYearStep P amort pmt loan yr st).yearly = st.yearly ++ [row] ∧ row.year = yr ∧
      (rvbYearStep P amort pmt loan yr st).breakeven_year =
        (if st.breakeven_year = none ∧ row.rent_net_worth ≤ row.buy_net_worth
          then some row.year else st.breakeven_year) :=
  ⟨_, rfl, rfl, rfl⟩

theorem BreakevenInv_append (be : Option ℕ) (rows : List RVBYear) (row : RVBYear)
    (hinv : BreakevenInv be rows) (hyr : row.year = rows.length + 1) :
    BreakevenInv (if be = none ∧ row.rent_net_worth ≤ row.buy_net_worth
      then some row.year else be) (rows ++ [row]) := by
  obtain ⟨hlab, hcross⟩ := hinv
  have hget_lt : ∀ i (hi : i < rows.length) (h : i < (rows ++ [row]).length),
      (rows ++ [row]).get ⟨i, h⟩ = rows.get ⟨i, hi⟩ := by
    intro i hi h
    rw [List.get_eq_getElem, List.get_eq_getElem]
    exact List.getElem_append_left hi
  have hget_last : ∀ h : rows.length < (rows ++ [row]).length,
      (rows ++ [row]).get ⟨rows.length, h⟩ = row := by
    intro h
    rw [List.get_eq_getElem]
    exact List.getElem_concat_length rows row _ rfl _
  have hlab' : ∀ i (h : i < (rows ++ [row]).length),
      ((rows ++ [row]).get ⟨i, h⟩).year = i + 1 := by
    intro i h
    have hi : i < rows.length + 1 := by simpa using h
    rcases Nat.lt_or_ge i rows.length with hlt | hge
    · rw [hget_lt i hlt h]
      exact hlab i hlt
    · have : i = rows.length := by omega
      subst this
      rw [hget_last h, hyr]
  by_cases hc : be = none ∧ row.rent_net_worth ≤ row.buy_net_worth
  · rw [if_pos hc]
    refine ⟨hlab', ?_⟩
    refine ⟨by omega, ?_⟩
    have hylen : row.year - 1 < (rows ++ [row]).length := by
      simp only [List.length_append, List.length_singleton]
      omega
    refine ⟨hylen, ?_, ?_⟩
    · have : row.year - 1 = rows.length := by omega
      have hget : (rows ++ [row]).get ⟨row.year - 1, hylen⟩ = row := by
        conv in row.year - 1 => rw [this]
        exact hget_last _
      rw [hget]
      exact hc.2
    · intro j hj
      have hjr : j < rows.length := by omega
      rw [hget_lt j hjr]
      rw [hc.1] at hcross
      exact hcross j hjr
  · rw [if_neg hc]
    refine ⟨hlab', ?_⟩
    match be, hcross with
    | none, hcross =>
      have hrow : row.buy_net_worth < row.rent_net_worth := by
        by_contra hnot
        exact hc ⟨rfl, by linarith [not_lt.1 hnot]⟩
      intro i h
      rcases Nat.lt_or_ge i rows.length with hlt | hge
      · rw [hget_lt i hlt h]
        exact hcross i hlt
      · have : i = rows.length := by
          have : i < rows.length + 1 := by simpa using h
          omega
        subst this
        rw [hget_last h]
        exact hrow
    | some y, hcross =>
      obtain ⟨hy1, hy, hcr, hbefore⟩ := hcross
      refine ⟨hy1, by simp only [List.length_append, List.length_singleton]; omega, ?_, ?_⟩
      · rw [hget_lt (y - 1) hy]
        exact hcr
      · intro j hj
        have hjr : j < rows.length := by omega
        rw [hget_lt j hjr]
        exact hbefore j hj

theorem rvbYearStep_length (P : RVBParams) (amort : List AmortRow) (pmt loan : ℚ)
    (yr : ℕ) (st : RVBState) :
    (rvbYearStep P amort pmt loan yr st).yearly.length = st.yearly.length + 1 := by
  obtain ⟨row, hy, _, _⟩ := rvbYearStep_spec P amort pmt loan yr st
  rw [hy]
  simp

theorem rvbLoop_inv (P : RVBParams) (amort : List AmortRow) (pmt loan : ℚ) :
    ∀ (k : ℕ) (st : RVBState), BreakevenInv st.breakeven_year st.yearly →
      BreakevenInv (rvbLoop P amort pmt loan k (st.yearly.length + 1) st).breakeven_year
        (rvbLoop P amort pmt loan k (st.yearly.length + 1) st).yearly := by
  intro k
  induction k with
  | zero => intro st h; exact h
  | succ k ih =>
    intro st h
    obtain ⟨row, hyearly, hyear, hbe⟩ :=
      rvbYearStep_spec P amort pmt loan (st.yearly.length + 1) st
    have hinv' : BreakevenInv
        (rvbYearStep P amort pmt loan (st.yearly.length + 1) st).breakeven_year
        (rvbYearStep P amort pmt loan (st.yearly.length + 1) st).yearly := by
      rw [hyearly, hbe]
      exact BreakevenInv_append st.breakeven_year st.yearly row h hyear
    have hlen := rvbYearStep_length P amort pmt loan (st.yearly.length + 1) st
    have hstep := ih (rvbYearStep P amort pmt loan (st.yearly.length + 1) st) hinv'
    rw [hlen] at hstep
    simpa only [rvbLoop] using hstep

/-- The rent-vs-buy result's `breakeven_year` is exactly the first year
(1-based, in order) whose rounded buyer net worth is at least the rounded
renter net worth, and is `none` when no simulated year crosses. -/
theorem rent_vs_buy_breakeven_first_crossing (P : RVBParams) (res : RVBResult)
    (hres : api_rent_vs_buy P = some res) :
    (∀ i (h : i < res.yearly_comparison.length),
      (res.yearly_comparison.get ⟨i, h⟩).year = i + 1) ∧
    (∀ y, res.breakeven_year = some y →
      1 ≤ y ∧ ∃ hy : y - 1 < res.yearly_comparison.length,
        (res.yearly_comparison.get ⟨y - 1, hy⟩).rent_net_worth ≤
          (res.yearly_comparison.get ⟨y - 1, hy⟩).buy_net_worth ∧
        ∀ j (hj : j < y - 1),
          (res.yearly_comparison.get ⟨j, by omega⟩).buy_net_worth <
            (res.yearly_comparison.get ⟨j, by omega⟩).rent_net_worth) ∧
    (res.breakeven_year = none → ∀ i (h : i < res.yearly_comparison.length),
      (res.yearly_comparison.get ⟨i, h⟩).buy_net_worth <
        (res.yearly_comparison.get ⟨i, h⟩).rent_net_worth) := by
  simp only [api_rent_vs_buy, Option.bind_eq_some] at hres
  obtain ⟨pmt, hpmt, hres⟩ := hres
  obtain ⟨amort, hamort, hres⟩ := hres
  have hst0 : BreakevenInv (none : Option ℕ) ([] : List RVBYear) := by
    refine ⟨?_, ?_⟩ <;> intro i h <;> simp at h
  have hinv : BreakevenInv
      (rvbLoop P amort pmt (P.home_price - P.home_price * P.down_payment_pct / 100)
        (min P.years 30).toNat 1
        ⟨P.home_price, P.monthly_rent, P.home_price * P.down_payment_pct / 100,
         P.home_price * P.down_payment_pct / 100, 0, none, []⟩).breakeven_year
      (rvbLoop P amort pmt (P.home_price - P.home_price * P.down_payment_pct / 100)
        (min P.years 30).toNat 1
        ⟨P.home_price, P.monthly_rent, P.home_price * P.down_payment_pct / 100,
         P.home_price * P.down_payment_pct / 100, 0, none, []⟩).yearly :=
    rvbLoop_inv P amort pmt (P.home_price - P.home_price * P.down_payment_pct / 100)
      (min P.years 30).toNat
      ⟨P.home_price, P.monthly_rent, P.home_price * P.down_payment_pct / 100,
       P.home_price * P.down_payment_pct / 100, 0, none, []⟩ hst0
  set stN := rvbLoop P amort pmt (P.home_price - P.home_price * P.down_payment_pct / 100)
    (min P.years 30).toNat 1
    ⟨P.home_price, P.monthly_rent, P.home_price * P.down_payment_pct / 100,
     P.home_price * P.down_payment_pct / 100, 0, none, []⟩ with hstN
  rcases hlast : stN.yearly.getLast? with _ | last
  · rw [hlast] at hres
    simp at hres
  · rw [hlast] at hres
    simp only [Option.some.injEq] at hres
    have hbe : res.breakeven_year = stN.breakeven_year := by rw [← hres]
    have hyc : res.yearly_comparison = stN.yearly := by rw [← hres]
    have hinv2 : BreakevenInv res.breakeven_year res.yearly_comparison := by
      rw [hbe, hyc, hstN]
      exact hinv
    obtain ⟨hlab, hcross⟩ := hinv2
    refine ⟨hlab, ?_, ?_⟩
    · intro y hy
      rw [hy] at hcross
      exact hcross
    · intro hnone
      rw [hnone] at hcross
      exact hcross

set_option maxRecDepth 4000 in
theorem rent_vs_buy_breakeven_first_crossing_witness :
    (∀ i (h : i < (RVBResult.mk (some 1) 100000 88000 "BUY"
        [RVBYear.mk 1 100000 88000 20000 12000]).yearly_comparison.length),
      ((RVBResult.mk (some 1) 100000 88000 "BUY"
        [RVBYear.mk 1 100000 88000 20000 12000]).yearly_comparison.get ⟨i, h⟩).year = i + 1) ∧
    (∀ y, (RVBResult.mk (some 1) 100000 88000 "BUY"
        [RVBYear.mk 1 100000 88000 20000 12000]).breakeven_year = some y →
      1 ≤ y ∧ ∃ hy : y - 1 < (RVBResult.mk (some 1) 100000 88000 "BUY"
          [RVBYear.mk 1 100000 88000 20000 12000]).yearly_comparison.length,
        ((RVBResult.mk (some 1) 100000 88000 "BUY"
          [RVBYear.mk 1 100000 88000 20000 12000]).yearly_comparison.get
            ⟨y - 1, hy⟩).rent_net_worth ≤
          ((RVBResult.mk (some 1) 100000 88000 "BUY"
            [RVBYear.mk 1 100000 88000 20000 12000]).yearly_comparison.get
              ⟨y - 1, hy⟩).buy_net_worth ∧
        ∀ j (hj : j < y - 1),
          ((RVBResult.mk (some 1) 100000 88000 "BUY"
            [RVBYear.mk 1 100000 88000 20000 12000]).yearly_comparison.get
              ⟨j, by omega⟩).buy_net_worth <
            ((RVBResult.mk (some 1) 100000 88000 "BUY"
              [RVBYear.mk 1 100000 88000 20000 12000]).yearly_comparison.get
                ⟨j, by omega⟩).rent_net_worth) ∧
    ((RVBResult.mk (some 1) 100000 88000 "BUY"
        [RVBYear.mk 1 100000 88000 20000 12000]).breakeven_year = none →
      ∀ i (h : i < (RVBResult.mk (some 1) 100000 88000 "BUY"
          [RVBYear.mk 1 100000 88000 20000 12000]).yearly_comparison.length),
        ((RVBResult.mk (some 1) 100000 88000 "BUY"
          [RVBYear.mk 1 100000 88000 20000 12000]).yearly_comparison.get
            ⟨i, h⟩).buy_net_worth <
          ((RVBResult.mk (some 1) 100000 88000 "BUY"
            [RVBYear.mk 1 100000 88000 20000 12000]).yearly_comparison.get
              ⟨i, h⟩).rent_net_worth) :=
  rent_vs_buy_breakeven_first_crossing ⟨100000, 20, 0, 1, 0, 1000, 0, 0, 0, 0, 0, 1⟩
    (RVBResult.mk (some 1) 100000 88000 "BUY" [RVBYear.mk 1 100000 88000 20000 12000])
    (by decide)

end

end FinCalc
